import Mathlib

/-!
Shallow embedding of the ink! contract `game_public_good` (files
`src/contracts/game_public_good/lib.rs` and `src/contracts/traits/lib.rs`)
and proofs about its round-lifecycle operations.

Modelling conventions:
* `AccountId` and `Hash` are opaque tokens, modelled as `Nat`.
* `u128` values (balances) are `Nat` guarded by `U128LIMIT = 2 ^ 128`;
  ink! contracts are built with overflow checks, so an overflowing
  arithmetic operation panics and the host reverts the call.  A panic is
  modelled by the `CallOutcome.trap` outcome.  `u8` fields (`next_round_id`,
  the return value of `join`) are guarded by 256 in the same way.
* Returning `Err` from an ink! message reverts all state changes, and in
  this contract every error is returned before any mutation; therefore an
  erring call is modelled by `CallOutcome.err e`, which carries no state:
  the post-state of an erring or trapping call is the pre-state.
* The Blake2x256 hash primitive is external to the contract; operations
  that hash are parametrised by an arbitrary function
  `blake : List Nat → Hash` applied to the exact byte string the contract
  hashes (little-endian 16-byte encodings of the two `u128` reveal values,
  concatenated).
-/

namespace GamePublicGoodSpec

/-- AccountId from ink primitives, an opaque equality-comparable token. -/
abbrev AccountId := Nat

/-- Hash (32-byte digest) from ink primitives, modelled as an opaque token. -/
abbrev Hash := Nat

/-- Exclusive upper bound of `u128` values. -/
def U128LIMIT : Nat := 2 ^ 128

/-- The error enum.  `traits/lib.rs` declares a subset, but the contract in
`game_public_good/lib.rs` uses the variants listed in the spec's error
taxonomy; all twelve are modelled. -/
inductive GameError where
  | CallerMustMatchNewPlayer
  | MaxPlayersReached
  | InsufficientJoiningFees
  | InvalidGameStartState
  | NotEnoughPlayers
  | GameNotStarted
  | NoCurrentRound
  | InvalidRoundContribution
  | InvalidReveal
  | CommitmentNotFound
  | RoundNotExpired
  | FailedToCloseRound
deriving DecidableEq, Repr

/-- GameStatus from `traits/lib.rs`. -/
inductive GameStatus where
  | Initialized
  | Ready
  | Started
  | Ended
deriving DecidableEq, Repr

/-- RoundStatus from `traits/lib.rs`. -/
inductive RoundStatus where
  | Ready
  | Started
  | PendingRewardsClaim
  | Ended
deriving DecidableEq, Repr

/-- GameConfigs from `traits/lib.rs` (plus the `is_rounds_based` flag the
contract's constructors set).  `u8` and `u128` fields are `Nat`. -/
structure GameConfigs where
  max_players : Nat
  min_players : Nat
  min_round_contribution : Option Nat
  max_round_contribution : Option Nat
  post_round_actions : Bool
  round_timeout : Option Nat
  max_rounds : Option Nat
  join_fee : Option Nat
  is_rounds_based : Bool
deriving DecidableEq, Repr

/-- GameRound as the contract uses it: `id`, status, append-only association
lists for commits (player, hash), reveals (player, (amount, nonce)) and
contributions (player, value), plus the running totals. -/
structure GameRound where
  id : Nat
  status : RoundStatus
  player_commits : List (AccountId × Hash)
  player_reveals : List (AccountId × (Nat × Nat))
  player_contributions : List (AccountId × Nat)
  total_contribution : Nat
  total_reward : Nat
deriving DecidableEq, Repr

/-- The contract storage struct `GamePublicGood`. -/
structure GamePublicGood where
  players : List AccountId
  status : GameStatus
  rounds : List GameRound
  current_round : Option GameRound
  next_round_id : Nat
  configs : GameConfigs
deriving DecidableEq, Repr

/-- Outcome of one message call: normal return with value and post-state,
typed error (host reverts, post-state = pre-state), or panic/trap
(`todo!`, `unwrap` on `None`, checked-arithmetic overflow; host reverts). -/
inductive CallOutcome (α : Type) where
  | ok (val : α) (g : GamePublicGood)
  | err (e : GameError)
  | trap
deriving DecidableEq

namespace GamePublicGood

/-- Constructor `new(configs)`. -/
def new (configs : GameConfigs) : GamePublicGood :=
  { players := []
    status := GameStatus.Initialized
    rounds := []
    current_round := none
    next_round_id := 1
    configs := configs }

/-- The configs built by the `default()` constructor. -/
def defaultConfigs : GameConfigs :=
  { max_players := 10
    min_players := 2
    min_round_contribution := none
    max_round_contribution := some 1000
    post_round_actions := false
    round_timeout := none
    max_rounds := none
    join_fee := none
    is_rounds_based := false }

/-- Rust's derived `Option` ordering restricted to `<` on `Option<u128>`:
`None` is less than every `Some`. -/
def optionLt : Option Nat → Option Nat → Bool
  | none, none => false
  | none, some _ => true
  | some _, none => false
  | some a, some b => a < b

/-- The `if let Some(fees) = join_fee { transferred_value < fees }` check of
`join`. -/
def feeCheckFails : Option Nat → Nat → Bool
  | some fees, v => v < fees
  | none, _ => false

/-- `join(player)` from `game_public_good/lib.rs` lines 83-100.  `caller` and
`transferred_value` come from the host environment.  Checks, in order:
caller must equal the candidate, the player list must not already be full,
and the attached value must cover the configured join fee.  Then appends the
candidate (no duplicate check) and returns the new length as `u8`. -/
def join (g : GamePublicGood) (caller player : AccountId) (transferred_value : Nat) :
    CallOutcome Nat :=
  if caller ≠ player then
    CallOutcome.err GameError.CallerMustMatchNewPlayer
  else if g.configs.max_players ≤ g.players.length then
    CallOutcome.err GameError.MaxPlayersReached
  else if feeCheckFails g.configs.join_fee transferred_value then
    CallOutcome.err GameError.InsufficientJoiningFees
  else
    CallOutcome.ok ((g.players.length + 1) % 256)
      { g with players := g.players ++ [player] }

/-- The fresh round `start_game` installs. -/
def freshRound (id : Nat) : GameRound :=
  { id := id
    status := RoundStatus.Ready
    player_commits := []
    player_reveals := []
    player_contributions := []
    total_contribution := 0
    total_reward := 0 }

/-- `start_game()` from lines 103-126.  Requires status `Initialized` and at
least `min_players` players; installs round `next_round_id` in `Ready`
status, sets game status `Started`, increments the `u8` round counter
(checked: overflow at 256 panics). -/
def start_game (g : GamePublicGood) : CallOutcome Unit :=
  if g.status ≠ GameStatus.Initialized then
    CallOutcome.err GameError.InvalidGameStartState
  else if g.players.length < g.configs.min_players then
    CallOutcome.err GameError.NotEnoughPlayers
  else if 256 ≤ g.next_round_id + 1 then
    CallOutcome.trap
  else
    CallOutcome.ok ()
      { g with
        current_round := some (freshRound g.next_round_id)
        status := GameStatus.Started
        next_round_id := g.next_round_id + 1 }

/-- `play_round(commitment)` from lines 129-173.  Checks, in order: game
status is `Started`, a current round exists, and NOT
`Some(transferred_value) < configs.max_round_contribution` (Rust `Option`
ordering; `min_round_contribution` is never consulted).  Then appends the
commitment and the contribution to the current round and adds the value to
`total_contribution` (checked `u128` addition).  The round status field is
not touched. -/
def play_round (g : GamePublicGood) (caller : AccountId) (transferred_value : Nat)
    (commitment : Hash) : CallOutcome Unit :=
  if g.status ≠ GameStatus.Started then
    CallOutcome.err GameError.GameNotStarted
  else
    match g.current_round with
    | none => CallOutcome.err GameError.NoCurrentRound
    | some r =>
      if optionLt (some transferred_value) g.configs.max_round_contribution then
        CallOutcome.err GameError.InvalidRoundContribution
      else if U128LIMIT ≤ r.total_contribution + transferred_value then
        CallOutcome.trap
      else
        CallOutcome.ok ()
          { g with
            current_round := some
              { r with
                player_commits := r.player_commits ++ [(caller, commitment)]
                player_contributions :=
                  r.player_contributions ++ [(caller, transferred_value)]
                total_contribution := r.total_contribution + transferred_value } }

/-- `u128::to_le_bytes`: the 16 little-endian bytes of a `u128` value. -/
def u128_le_bytes (n : Nat) : List Nat :=
  (List.range 16).map (fun i => n / 256 ^ i % 256)

/-- The byte string `reveal_round` hashes:
`[reveal.0.to_le_bytes(), reveal.1.to_le_bytes()].concat()`. -/
def commitHashInput (amount nonce : Nat) : List Nat :=
  u128_le_bytes amount ++ u128_le_bytes nonce

/-- `reveal_round(reveal)` from lines 176-208.  Hashes the little-endian
encoding of the reveal pair with Blake2x256 (modelled by the parameter
`blake`), then `unwrap`s the current round (panics when there is none),
finds the caller's first stored commitment, and compares.  On success the
reveal is appended (no duplicate check, no status change). -/
def reveal_round (blake : List Nat → Hash) (g : GamePublicGood) (caller : AccountId)
    (reveal : Nat × Nat) : CallOutcome Unit :=
  match g.current_round with
  | none => CallOutcome.trap
  | some r =>
    match r.player_commits.find? (fun pc => pc.1 == caller) with
    | none => CallOutcome.err GameError.CommitmentNotFound
    | some pc =>
      if pc.2 ≠ blake (commitHashInput reveal.1 reveal.2) then
        CallOutcome.err GameError.InvalidReveal
      else
        CallOutcome.ok ()
          { g with
            current_round := some
              { r with player_reveals := r.player_reveals ++ [(caller, reveal)] } }

/-- `complete_round()` from lines 211-213: the body is `todo!("implement")`,
which panics unconditionally. -/
def complete_round (_g : GamePublicGood) : CallOutcome Unit :=
  CallOutcome.trap

/-- `force_complete_round()` from lines 216-218: the body is
`todo!("implement")`, which panics unconditionally. -/
def force_complete_round (_g : GamePublicGood) : CallOutcome Unit :=
  CallOutcome.trap

/-- `end_game()` from lines 221-223: the body is `todo!("implement")`,
which panics unconditionally. -/
def end_game (_g : GamePublicGood) : CallOutcome Unit :=
  CallOutcome.trap

end GamePublicGood

open GamePublicGood

/-- One successful message call of the contract, for a fixed hash primitive
`blake`.  Erring and trapping calls leave the state unchanged (the host
reverts them), so only `ok` outcomes produce transitions. -/
inductive Step (blake : List Nat → Hash) : GamePublicGood → GamePublicGood → Prop where
  | join_call {g g' : GamePublicGood} (caller player : AccountId) (v n : Nat) :
      join g caller player v = CallOutcome.ok n g' → Step blake g g'
  | start_game_call {g g' : GamePublicGood} :
      start_game g = CallOutcome.ok () g' → Step blake g g'
  | play_round_call {g g' : GamePublicGood} (caller : AccountId) (v : Nat) (c : Hash) :
      play_round g caller v c = CallOutcome.ok () g' → Step blake g g'
  | reveal_round_call {g g' : GamePublicGood} (caller : AccountId) (amount nonce : Nat) :
      reveal_round blake g caller (amount, nonce) = CallOutcome.ok () g' →
      Step blake g g'
  | complete_round_call {g g' : GamePublicGood} :
      complete_round g = CallOutcome.ok () g' → Step blake g g'
  | force_complete_round_call {g g' : GamePublicGood} :
      force_complete_round g = CallOutcome.ok () g' → Step blake g g'
  | end_game_call {g g' : GamePublicGood} :
      end_game g = CallOutcome.ok () g' → Step blake g g'

/-- A state is reachable when some sequence of successful calls produces it
from a freshly constructed game (any configs). -/
inductive Reachable (blake : List Nat → Hash) : GamePublicGood → Prop where
  | init (configs : GameConfigs) : Reachable blake (GamePublicGood.new configs)
  | step {g g' : GamePublicGood} : Reachable blake g → Step blake g g' →
      Reachable blake g'

/-- Characterisation of successful `join` calls. -/
theorem join_ok_iff (g : GamePublicGood) (caller player : AccountId) (v n : Nat)
    (g' : GamePublicGood) :
    join g caller player v = CallOutcome.ok n g' ↔
      caller = player ∧ g.players.length < g.configs.max_players ∧
      feeCheckFails g.configs.join_fee v = false ∧
      n = (g.players.length + 1) % 256 ∧
      g' = { g with players := g.players ++ [player] } := by
  constructor
  · intro h
    unfold join at h
    split at h
    · exact absurd h (by simp)
    · split at h
      · exact absurd h (by simp)
      · split at h
        · exact absurd h (by simp)
        · rename_i hcp hlen hfee
          rw [not_ne_iff] at hcp
          rw [Nat.not_le] at hlen
          rw [CallOutcome.ok.injEq] at h
          exact ⟨hcp, hlen, by simpa using hfee, h.1.symm, h.2.symm⟩
  · rintro ⟨rfl, hlen, hfee, rfl, rfl⟩
    unfold join
    rw [if_neg (by simp), if_neg (Nat.not_le.mpr hlen), if_neg (by simp [hfee])]

/-- Characterisation of successful `start_game` calls. -/
theorem start_game_ok_iff (g : GamePublicGood) (g' : GamePublicGood) :
    start_game g = CallOutcome.ok () g' ↔
      g.status = GameStatus.Initialized ∧
      g.configs.min_players ≤ g.players.length ∧
      g.next_round_id + 1 < 256 ∧
      g' = { g with
        current_round := some (freshRound g.next_round_id)
        status := GameStatus.Started
        next_round_id := g.next_round_id + 1 } := by
  constructor
  · intro h
    unfold start_game at h
    split at h
    · exact absurd h (by simp)
    · split at h
      · exact absurd h (by simp)
      · split at h
        · exact absurd h (by simp)
        · rename_i hst hlen hid
          rw [not_ne_iff] at hst
          rw [Nat.not_lt] at hlen
          rw [Nat.not_le] at hid
          rw [CallOutcome.ok.injEq] at h
          exact ⟨hst, hlen, hid, h.2.symm⟩
  · rintro ⟨hst, hlen, hid, rfl⟩
    unfold start_game
    rw [if_neg (by simp [hst]), if_neg (Nat.not_lt.mpr hlen), if_neg (Nat.not_le.mpr hid)]

/-- Characterisation of successful `play_round` calls. -/
theorem play_round_ok_iff (g : GamePublicGood) (caller : AccountId) (v : Nat)
    (c : Hash) (g' : GamePublicGood) :
    play_round g caller v c = CallOutcome.ok () g' ↔
      g.status = GameStatus.Started ∧
      ∃ r, g.current_round = some r ∧
        optionLt (some v) g.configs.max_round_contribution = false ∧
        r.total_contribution + v < U128LIMIT ∧
        g' = { g with
          current_round := some
            { r with
              player_commits := r.player_commits ++ [(caller, c)]
              player_contributions := r.player_contributions ++ [(caller, v)]
              total_contribution := r.total_contribution + v } } := by
  constructor
  · intro h
    unfold play_round at h
    split at h
    · exact absurd h (by simp)
    · rename_i hst
      rw [not_ne_iff] at hst
      cases hcur : g.current_round with
      | none =>
        rw [hcur] at h
        exact absurd h (by simp)
      | some r =>
        rw [hcur] at h
        simp only at h
        split at h
        · exact absurd h (by simp)
        · split at h
          · exact absurd h (by simp)
          · rename_i hval hov
            rw [Nat.not_le] at hov
            rw [CallOutcome.ok.injEq] at h
            exact ⟨hst, r, rfl, by simpa using hval, hov, h.2.symm⟩
  · rintro ⟨hst, r, hcur, hval, hov, rfl⟩
    unfold play_round
    rw [if_neg (by simp [hst]), hcur]
    simp only
    rw [if_neg (by simp [hval]), if_neg (Nat.not_le.mpr hov)]

/-- Characterisation of successful `reveal_round` calls. -/
theorem reveal_round_ok_iff (blake : List Nat → Hash) (g : GamePublicGood)
    (caller : AccountId) (amount nonce : Nat) (g' : GamePublicGood) :
    reveal_round blake g caller (amount, nonce) = CallOutcome.ok () g' ↔
      ∃ r, g.current_round = some r ∧
        ∃ pc, r.player_commits.find? (fun pc => pc.1 == caller) = some pc ∧
          pc.2 = blake (commitHashInput amount nonce) ∧
          g' = { g with
            current_round := some
              { r with player_reveals := r.player_reveals ++ [(caller, (amount, nonce))] } } := by
  constructor
  · intro h
    unfold reveal_round at h
    cases hcur : g.current_round with
    | none =>
      rw [hcur] at h
      exact absurd h (by simp)
    | some r =>
      rw [hcur] at h
      simp only at h
      cases hf : r.player_commits.find? (fun pc => pc.1 == caller) with
      | none =>
        rw [hf] at h
        exact absurd h (by simp)
      | some pc =>
        rw [hf] at h
        simp only at h
        split at h
        · exact absurd h (by simp)
        · rename_i heq
          rw [not_ne_iff] at heq
          rw [CallOutcome.ok.injEq] at h
          exact ⟨r, rfl, pc, hf, heq, h.2.symm⟩
  · rintro ⟨r, hcur, pc, hf, heq, rfl⟩
    unfold reveal_round
    rw [hcur]
    simp only
    rw [hf]
    simp only
    rw [if_neg (by simp [heq])]

/-- `complete_round` never returns. -/
theorem complete_round_not_ok (g g' : GamePublicGood) :
    ¬ complete_round g = CallOutcome.ok () g' := by
  simp [complete_round]

/-- `force_complete_round` never returns. -/
theorem force_complete_round_not_ok (g g' : GamePublicGood) :
    ¬ force_complete_round g = CallOutcome.ok () g' := by
  simp [force_complete_round]

/-- `end_game` never returns. -/
theorem end_game_not_ok (g g' : GamePublicGood) :
    ¬ end_game g = CallOutcome.ok () g' := by
  simp [end_game]

/-- Sum of the values of a contribution list. -/
def contribSum (l : List (AccountId × Nat)) : Nat :=
  (l.map Prod.snd).sum

/-- Appending one contribution adds its value to the sum. -/
theorem contribSum_append (l : List (AccountId × Nat)) (a : AccountId) (v : Nat) :
    contribSum (l ++ [(a, v)]) = contribSum l + v := by
  unfold contribSum
  simp

/-- `List.find?` is unchanged by appending when it already finds a hit. -/
theorem find?_append_of_some {α : Type} (p : α → Bool) (l1 l2 : List α) (a : α)
    (h : l1.find? p = some a) : (l1 ++ l2).find? p = some a := by
  induction l1 with
  | nil => simp at h
  | cons x xs ih =>
    simp only [List.cons_append, List.find?] at h ⊢
    cases hx : p x with
    | true =>
      simp only [hx] at h ⊢
      exact h
    | false =>
      simp only [hx] at h ⊢
      exact ih h

/-- A fixed hash function used to instantiate the `blake` parameter in
concrete runs. -/
def blake0 : List Nat → Hash := fun _ => 0

/-- Fresh default game: players 1 and 2 have joined. -/
def gJoin1 : GamePublicGood :=
  { GamePublicGood.new defaultConfigs with players := [1] }

/-- Fresh default game after two joins. -/
def gJoin2 : GamePublicGood :=
  { GamePublicGood.new defaultConfigs with players := [1, 2] }

/-- The default game with players 1 and 2 after `start_game`: round 1 is
live in `Ready` status. -/
def gStarted : GamePublicGood :=
  { gJoin2 with
    status := GameStatus.Started
    current_round := some (freshRound 1)
    next_round_id := 2 }

/-- The live round of `gP1`: player 1 committed hash 7 with value 1000. -/
def roundP1 : GameRound :=
  { id := 1
    status := RoundStatus.Ready
    player_commits := [(1, 7)]
    player_reveals := []
    player_contributions := [(1, 1000)]
    total_contribution := 1000
    total_reward := 0 }

/-- `gStarted` after `play_round` by player 1 (value 1000, commitment 7). -/
def gP1 : GamePublicGood :=
  { gStarted with current_round := some roundP1 }

/-- The live round of `gP2`: player 1 committed twice. -/
def roundP2 : GameRound :=
  { roundP1 with
    player_commits := [(1, 7), (1, 9)]
    player_contributions := [(1, 1000), (1, 1000)]
    total_contribution := 2000 }

/-- `gP1` after a second `play_round` by the same player 1. -/
def gP2 : GamePublicGood :=
  { gStarted with current_round := some roundP2 }

/-- The live round of `gP2000`: player 1 contributed 2000, above the
configured `max_round_contribution` of 1000. -/
def roundP2000 : GameRound :=
  { id := 1
    status := RoundStatus.Ready
    player_commits := [(1, 7)]
    player_reveals := []
    player_contributions := [(1, 2000)]
    total_contribution := 2000
    total_reward := 0 }

/-- `gStarted` after `play_round` by player 1 with value 2000. -/
def gP2000 : GamePublicGood :=
  { gStarted with current_round := some roundP2000 }

/-- Player 1 has joined: one `join` call from the fresh default game. -/
theorem gJoin1_reachable : Reachable blake0 gJoin1 :=
  Reachable.step (Reachable.init defaultConfigs) (Step.join_call 1 1 0 1 (by decide))

/-- Player 2 has joined as well. -/
theorem gJoin2_reachable : Reachable blake0 gJoin2 :=
  Reachable.step gJoin1_reachable (Step.join_call 2 2 0 2 (by decide))

/-- `gStarted` is reachable: new → join 1 → join 2 → start_game. -/
theorem gStarted_reachable : Reachable blake0 gStarted :=
  Reachable.step gJoin2_reachable (Step.start_game_call (by decide))

/-- `gP1` is reachable: one `play_round` call from `gStarted`. -/
theorem gP1_reachable : Reachable blake0 gP1 :=
  Reachable.step gStarted_reachable (Step.play_round_call 1 1000 7 (by decide))

/-- C1: fund conservation.  In every reachable state, for the live round and
for every archived round, the sum of the values in `player_contributions`
equals `total_contribution`; `start_game` creates rounds satisfying the
equality and `play_round` preserves it, as do all other successful calls. -/
theorem C1_fund_conservation (blake : List Nat → Hash) (g : GamePublicGood)
    (hreach : Reachable blake g) :
    (∀ r, g.current_round = some r →
      contribSum r.player_contributions = r.total_contribution) ∧
    ∀ r ∈ g.rounds, contribSum r.player_contributions = r.total_contribution := by
  induction hreach with
  | init configs =>
    constructor
    · intro r hr
      simp [GamePublicGood.new] at hr
    · intro r hr
      simp [GamePublicGood.new] at hr
  | step hr hs ih =>
    cases hs with
    | join_call caller player v n hok =>
      obtain ⟨-, -, -, -, rfl⟩ := (join_ok_iff _ _ _ _ _ _).mp hok
      exact ih
    | start_game_call hok =>
      obtain ⟨-, -, -, rfl⟩ := (start_game_ok_iff _ _).mp hok
      refine ⟨?_, ih.2⟩
      intro r hrr
      injection hrr with hrr
      subst hrr
      rfl
    | play_round_call caller v c hok =>
      obtain ⟨hst, r0, hcur, hval, hov, rfl⟩ := (play_round_ok_iff _ _ _ _ _).mp hok
      refine ⟨?_, ih.2⟩
      intro r hrr
      injection hrr with hrr
      subst hrr
      show contribSum (r0.player_contributions ++ [(caller, v)]) =
        r0.total_contribution + v
      rw [contribSum_append, ih.1 r0 hcur]
    | reveal_round_call caller amount nonce hok =>
      obtain ⟨r0, hcur, pc, hf, heq, rfl⟩ := (reveal_round_ok_iff _ _ _ _ _ _).mp hok
      refine ⟨?_, ih.2⟩
      intro r hrr
      injection hrr with hrr
      subst hrr
      show contribSum r0.player_contributions = r0.total_contribution
      exact ih.1 r0 hcur
    | complete_round_call hok => exact absurd hok (complete_round_not_ok _ _)
    | force_complete_round_call hok =>
      exact absurd hok (force_complete_round_not_ok _ _)
    | end_game_call hok => exact absurd hok (end_game_not_ok _ _)

/-- C1 witness: the live round of the reachable state `gP1` conserves funds. -/
theorem C1_witness :
    contribSum roundP1.player_contributions = roundP1.total_contribution :=
  (C1_fund_conservation blake0 gP1 gP1_reachable).1 roundP1 rfl

/-- C2: commit-reveal soundness.  With a live round, `reveal_round` succeeds
iff the caller has a stored commitment and the Blake2x256 digest of the
concatenated little-endian 16-byte encodings of amount and nonce (the
abstract `blake` applied to `commitHashInput`) equals that commitment; it
returns `CommitmentNotFound` when the caller has no stored commitment and
`InvalidReveal` when the recomputed digest differs. -/
theorem C2_reveal_soundness (blake : List Nat → Hash) (g : GamePublicGood)
    (caller : AccountId) (amount nonce : Nat) (r : GameRound)
    (hlive : g.current_round = some r) :
    ((∃ g', reveal_round blake g caller (amount, nonce) = CallOutcome.ok () g') ↔
      ∃ pc, r.player_commits.find? (fun q => q.1 == caller) = some pc ∧
        blake (commitHashInput amount nonce) = pc.2) ∧
    (r.player_commits.find? (fun q => q.1 == caller) = none →
      reveal_round blake g caller (amount, nonce) =
        CallOutcome.err GameError.CommitmentNotFound) ∧
    (∀ pc, r.player_commits.find? (fun q => q.1 == caller) = some pc →
      blake (commitHashInput amount nonce) ≠ pc.2 →
      reveal_round blake g caller (amount, nonce) =
        CallOutcome.err GameError.InvalidReveal) := by
  refine ⟨⟨?_, ?_⟩, ?_, ?_⟩
  · rintro ⟨g', hok⟩
    obtain ⟨r', hcur', pc, hf, heq, -⟩ := (reveal_round_ok_iff _ _ _ _ _ _).mp hok
    rw [hlive, Option.some.injEq] at hcur'
    subst hcur'
    exact ⟨pc, hf, heq.symm⟩
  · rintro ⟨pc, hf, heq⟩
    exact ⟨_, (reveal_round_ok_iff _ _ _ _ _ _).mpr ⟨r, hlive, pc, hf, heq.symm, rfl⟩⟩
  · intro hf
    unfold reveal_round
    rw [hlive]
    simp only
    rw [hf]
  · intro pc hf hne
    unfold reveal_round
    rw [hlive]
    simp only
    rw [hf]
    simp only
    rw [if_pos (Ne.symm hne)]

/-- C2 witness: in the reachable state `gP1`, caller 2 has no stored
commitment, so revealing fails with `CommitmentNotFound`. -/
theorem C2_witness :
    reveal_round blake0 gP1 2 (5, 6) = CallOutcome.err GameError.CommitmentNotFound :=
  (C2_reveal_soundness blake0 gP1 2 5 6 roundP1 rfl).2.1 (by decide)

/-- C3: the claim says `force_complete_round` returns `Ok` for a committed
caller once `round_timeout` ticks elapsed; in the source its body is
`todo!("implement")`, so every call panics (trap) instead, in every state. -/
theorem C3_force_complete_round_traps (g : GamePublicGood) :
    force_complete_round g = CallOutcome.trap :=
  rfl

/-- C4 counterexample: `complete_round`, called in the reachable fresh state,
panics (`todo!`) instead of returning success or a typed `GameError`. -/
theorem C4_counterexample :
    Reachable blake0 (GamePublicGood.new defaultConfigs) ∧
    complete_round (GamePublicGood.new defaultConfigs) = CallOutcome.trap :=
  ⟨Reachable.init defaultConfigs, rfl⟩

/-- C4 (amended): `join` and `start_game` (while the `u8` round counter does
not overflow) and `play_round` (while the `u128` contribution total does not
overflow) and `reveal_round` (while a live round exists) return synchronously
with success or a typed `GameError`, and an error reverts to exactly the
pre-call state; but `complete_round`, `force_complete_round` and `end_game`
are unimplemented and panic in every state (the host reverts the call). -/
theorem C4_amended_no_panic (blake : List Nat → Hash) (g : GamePublicGood)
    (caller player : AccountId) (v : Nat) (c : Hash) (amount nonce : Nat)
    (r : GameRound)
    (hid : g.next_round_id + 1 < 256)
    (hlive : g.current_round = some r)
    (hov : r.total_contribution + v < U128LIMIT) :
    join g caller player v ≠ CallOutcome.trap ∧
    start_game g ≠ CallOutcome.trap ∧
    play_round g caller v c ≠ CallOutcome.trap ∧
    reveal_round blake g caller (amount, nonce) ≠ CallOutcome.trap ∧
    complete_round g = CallOutcome.trap ∧
    force_complete_round g = CallOutcome.trap ∧
    end_game g = CallOutcome.trap := by
  refine ⟨?_, ?_, ?_, ?_, rfl, rfl, rfl⟩
  · unfold join
    split
    · simp
    · split
      · simp
      · split
        · simp
        · simp
  · unfold start_game
    split
    · simp
    · split
      · simp
      · split
        · rename_i hle
          exact absurd hid (Nat.not_lt.mpr hle)
        · simp
  · unfold play_round
    split
    · simp
    · rw [hlive]
      simp only
      split
      · simp
      · split
        · rename_i hle
          exact absurd hov (Nat.not_lt.mpr hle)
        · simp
  · unfold reveal_round
    rw [hlive]
    simp only
    cases hf : r.player_commits.find? (fun q => q.1 == caller) with
    | none => simp
    | some pc =>
      simp only
      split
      · simp
      · simp

/-- C4 witness: the amended statement at the reachable state `gStarted`. -/
theorem C4_witness :
    join gStarted 1 1 1000 ≠ CallOutcome.trap ∧
    start_game gStarted ≠ CallOutcome.trap ∧
    play_round gStarted 1 1000 7 ≠ CallOutcome.trap ∧
    reveal_round blake0 gStarted 1 (5, 6) ≠ CallOutcome.trap ∧
    complete_round gStarted = CallOutcome.trap ∧
    force_complete_round gStarted = CallOutcome.trap ∧
    end_game gStarted = CallOutcome.trap :=
  C4_amended_no_panic blake0 gStarted 1 1 1000 7 5 6 (freshRound 1)
    (by decide) rfl (by decide)

/-- Fresh default game after account 1 joined once. -/
def gDup1 : GamePublicGood :=
  { GamePublicGood.new defaultConfigs with players := [1] }

/-- Fresh default game after account 1 joined twice: a duplicate entry. -/
def gDup2 : GamePublicGood :=
  { GamePublicGood.new defaultConfigs with players := [1, 1] }

/-- C5 counterexample: a second `join` by an account already in `players`
succeeds (the code has no membership check), so the players sequence comes to
contain AccountId 1 twice. -/
theorem C5_counterexample :
    join (GamePublicGood.new defaultConfigs) 1 1 0 = CallOutcome.ok 1 gDup1 ∧
    join gDup1 1 1 0 = CallOutcome.ok 2 gDup2 ∧
    gDup2.players = [1, 1] := by
  decide

/-- C5 (amended): `join` performs no duplicate check; a repeat `join` by an
account already in `players` succeeds whenever the capacity and fee checks
pass, appending a duplicate entry. -/
theorem C5_amended_duplicate_join (g : GamePublicGood) (p : AccountId) (v : Nat)
    (_hmem : p ∈ g.players)
    (hcap : g.players.length < g.configs.max_players)
    (hfee : feeCheckFails g.configs.join_fee v = false) :
    join g p p v =
      CallOutcome.ok ((g.players.length + 1) % 256)
        { g with players := g.players ++ [p] } :=
  (join_ok_iff _ _ _ _ _ _).mpr ⟨rfl, hcap, hfee, rfl, rfl⟩

/-- C5 witness: account 1, already a player in `gDup1`, joins again. -/
theorem C5_witness :
    join gDup1 1 1 0 =
      CallOutcome.ok ((gDup1.players.length + 1) % 256)
        { gDup1 with players := gDup1.players ++ [1] } :=
  C5_amended_duplicate_join gDup1 1 0 (by decide) (by decide) rfl

/-- C6 counterexample: player 1 already has a commitment in the live round of
`gP1`, yet a second `play_round` succeeds and appends a second commitment:
the round ends up holding two commitments for player 1. -/
theorem C6_counterexample :
    play_round gStarted 1 1000 7 = CallOutcome.ok () gP1 ∧
    play_round gP1 1 1000 9 = CallOutcome.ok () gP2 ∧
    roundP2.player_commits = [(1, 7), (1, 9)] := by
  decide

/-- C6 (amended): `play_round` has no write-once check: a second call by a
player who already has a commitment in the current round succeeds and appends
an additional commitment; the first stored commitment is never overwritten or
removed, and the `find?` lookup used by `reveal_round` still returns it. -/
theorem C6_amended_second_commit (g : GamePublicGood) (caller : AccountId)
    (v : Nat) (c2 : Hash) (r : GameRound) (pc : AccountId × Hash)
    (hst : g.status = GameStatus.Started)
    (hlive : g.current_round = some r)
    (hfirst : r.player_commits.find? (fun q => q.1 == caller) = some pc)
    (hval : optionLt (some v) g.configs.max_round_contribution = false)
    (hov : r.total_contribution + v < U128LIMIT) :
    play_round g caller v c2 =
      CallOutcome.ok ()
        { g with
          current_round := some
            { r with
              player_commits := r.player_commits ++ [(caller, c2)]
              player_contributions := r.player_contributions ++ [(caller, v)]
              total_contribution := r.total_contribution + v } } ∧
    (r.player_commits ++ [(caller, c2)]).find? (fun q => q.1 == caller) = some pc :=
  ⟨(play_round_ok_iff _ _ _ _ _).mpr ⟨hst, r, hlive, hval, hov, rfl⟩,
    find?_append_of_some _ _ _ _ hfirst⟩

/-- C6 witness: the amended statement at `gP1`, where player 1 already
committed (1, 7). -/
theorem C6_witness :
    play_round gP1 1 1000 9 =
      CallOutcome.ok ()
        { gP1 with
          current_round := some
            { roundP1 with
              player_commits := roundP1.player_commits ++ [(1, 9)]
              player_contributions := roundP1.player_contributions ++ [(1, 1000)]
              total_contribution := roundP1.total_contribution + 1000 } } ∧
    (roundP1.player_commits ++ [(1, 9)]).find? (fun q => q.1 == 1) = some (1, 7) :=
  C6_amended_second_commit gP1 1 1000 9 roundP1 (1, 7) rfl rfl
    (by decide) (by decide) (by decide)

/-- C7 counterexample: the first successful `play_round` on `gStarted`, whose
live round is in `Ready` status, leaves the round status at `Ready`; it does
not become `Started`. -/
theorem C7_counterexample :
    play_round gStarted 1 1000 7 = CallOutcome.ok () gP1 ∧
    gP1.current_round = some roundP1 ∧
    roundP1.status = RoundStatus.Ready ∧
    roundP1.status ≠ RoundStatus.Started := by
  decide

/-- C7 (amended): `play_round` never touches the round status field: after
any successful `play_round`, the live round's status equals its status before
the call (it stays `Ready` for a round created by `start_game`). -/
theorem C7_amended_status_unchanged (g g' : GamePublicGood) (caller : AccountId)
    (v : Nat) (c : Hash) (r r' : GameRound)
    (hlive : g.current_round = some r)
    (hok : play_round g caller v c = CallOutcome.ok () g')
    (hcur' : g'.current_round = some r') :
    r'.status = r.status := by
  obtain ⟨-, r0, hcur0, -, -, rfl⟩ := (play_round_ok_iff _ _ _ _ _).mp hok
  rw [hlive] at hcur0
  injection hcur0 with hcur0
  subst hcur0
  injection hcur' with hcur'
  subst hcur'
  rfl

/-- C7 witness: the amended statement on the concrete run from `gStarted` to
`gP1`. -/
theorem C7_witness : roundP1.status = (freshRound 1).status :=
  C7_amended_status_unchanged gStarted gP1 1 1000 7 (freshRound 1) roundP1
    rfl (by decide) rfl

/-- C8 counterexample: with the default configs (`max_round_contribution =
some 1000`, `min_round_contribution = none`), a `play_round` whose attached
value 2000 lies above the configured maximum succeeds instead of returning
`InvalidRoundContribution`. -/
theorem C8_counterexample :
    defaultConfigs.max_round_contribution = some 1000 ∧
    play_round gStarted 1 2000 7 = CallOutcome.ok () gP2000 := by
  decide

/-- C8 (amended): in a started game with a live round, `play_round` fails
with `InvalidRoundContribution` exactly when `Some(value)` is below
`max_round_contribution` in the Rust `Option` ordering, i.e. iff
`max_round_contribution = Some m` and `value < m`; `min_round_contribution`
is never consulted, any value at or above `m` passes, and with
`max_round_contribution = None` every value passes. -/
theorem C8_amended_contribution_check (g : GamePublicGood) (caller : AccountId)
    (v : Nat) (c : Hash) (r : GameRound)
    (hst : g.status = GameStatus.Started)
    (hlive : g.current_round = some r) :
    play_round g caller v c = CallOutcome.err GameError.InvalidRoundContribution ↔
      optionLt (some v) g.configs.max_round_contribution = true := by
  unfold play_round
  rw [if_neg (by simp [hst]), hlive]
  simp only
  split
  · rename_i hlt
    simp [hlt]
  · rename_i hlt
    split
    · simp [hlt]
    · simp [hlt]

/-- C8 witness: at `gStarted` (configured maximum 1000), attached value 500
errs, matching the characterisation. -/
theorem C8_witness :
    play_round gStarted 1 500 7 = CallOutcome.err GameError.InvalidRoundContribution ↔
      optionLt (some 500) gStarted.configs.max_round_contribution = true :=
  C8_amended_contribution_check gStarted 1 500 7 (freshRound 1) rfl rfl

/-- Every reachable state respects the `max_players` bound. -/
theorem players_length_le_max (blake : List Nat → Hash) (g : GamePublicGood)
    (h : Reachable blake g) : g.players.length ≤ g.configs.max_players := by
  induction h with
  | init configs => simp [GamePublicGood.new]
  | step hr hs ih =>
    cases hs with
    | join_call caller player v n hok =>
      obtain ⟨-, hlen, -, -, rfl⟩ := (join_ok_iff _ _ _ _ _ _).mp hok
      simpa using hlen
    | start_game_call hok =>
      obtain ⟨-, -, -, rfl⟩ := (start_game_ok_iff _ _).mp hok
      exact ih
    | play_round_call caller v c hok =>
      obtain ⟨-, r0, -, -, -, rfl⟩ := (play_round_ok_iff _ _ _ _ _).mp hok
      exact ih
    | reveal_round_call caller amount nonce hok =>
      obtain ⟨r0, -, pc, -, -, rfl⟩ := (reveal_round_ok_iff _ _ _ _ _ _).mp hok
      exact ih
    | complete_round_call hok => exact absurd hok (complete_round_not_ok _ _)
    | force_complete_round_call hok =>
      exact absurd hok (force_complete_round_not_ok _ _)
    | end_game_call hok => exact absurd hok (end_game_not_ok _ _)

/-- C9: in every reachable state `|players| ≤ max_players`; a successful
`join` requires `caller = candidate` and preserves the bound;
`caller ≠ candidate` errs with `CallerMustMatchNewPlayer`; and a `join` that
would exceed the bound errs with `MaxPlayersReached`. -/
theorem C9_join_admission (blake : List Nat → Hash) (g : GamePublicGood)
    (caller player : AccountId) (v : Nat)
    (hreach : Reachable blake g) :
    g.players.length ≤ g.configs.max_players ∧
    (∀ n g', join g caller player v = CallOutcome.ok n g' →
      caller = player ∧ g'.players.length ≤ g'.configs.max_players) ∧
    (caller ≠ player →
      join g caller player v = CallOutcome.err GameError.CallerMustMatchNewPlayer) ∧
    (caller = player → g.configs.max_players ≤ g.players.length →
      join g caller player v = CallOutcome.err GameError.MaxPlayersReached) := by
  refine ⟨players_length_le_max blake g hreach, ?_, ?_, ?_⟩
  · intro n g' hok
    obtain ⟨hcp, hlen, -, -, rfl⟩ := (join_ok_iff _ _ _ _ _ _).mp hok
    exact ⟨hcp, by simpa using hlen⟩
  · intro hne
    unfold join
    rw [if_pos hne]
  · intro hcp hfull
    unfold join
    rw [if_neg (by simp [hcp]), if_pos hfull]

/-- C9 witness: in the reachable state `gStarted` the bound holds, and a
`join` by caller 3 for candidate 4 errs with `CallerMustMatchNewPlayer`. -/
theorem C9_witness :
    gStarted.players.length ≤ gStarted.configs.max_players ∧
    join gStarted 3 4 0 = CallOutcome.err GameError.CallerMustMatchNewPlayer :=
  ⟨(C9_join_admission blake0 gStarted 3 4 0 gStarted_reachable).1,
   (C9_join_admission blake0 gStarted 3 4 0 gStarted_reachable).2.2.1 (by decide)⟩

/-- C10: `play_round` imposes no membership requirement on the caller.  For
EVERY caller — in particular one absent from `players` — if the game status
is `Started`, a live round exists and the attached value passes the
contribution check (and recording it does not overflow the `u128` total),
the call succeeds and records that caller's commitment and contribution in
the live round. -/
theorem C10_no_membership_requirement (g : GamePublicGood) (caller : AccountId)
    (v : Nat) (c : Hash) (r : GameRound)
    (hst : g.status = GameStatus.Started)
    (hlive : g.current_round = some r)
    (hval : optionLt (some v) g.configs.max_round_contribution = false)
    (hov : r.total_contribution + v < U128LIMIT) :
    play_round g caller v c =
      CallOutcome.ok ()
        { g with
          current_round := some
            { r with
              player_commits := r.player_commits ++ [(caller, c)]
              player_contributions := r.player_contributions ++ [(caller, v)]
              total_contribution := r.total_contribution + v } } :=
  (play_round_ok_iff _ _ _ _ _).mpr ⟨hst, r, hlive, hval, hov, rfl⟩

/-- C10 witness: account 99 never joined (`99 ∉ gStarted.players`), yet its
`play_round` succeeds and is recorded in the live round. -/
theorem C10_witness :
    99 ∉ gStarted.players ∧
    play_round gStarted 99 1000 5 =
      CallOutcome.ok ()
        { gStarted with
          current_round := some
            { freshRound 1 with
              player_commits := (freshRound 1).player_commits ++ [(99, 5)]
              player_contributions :=
                (freshRound 1).player_contributions ++ [(99, 1000)]
              total_contribution := (freshRound 1).total_contribution + 1000 } } :=
  ⟨by decide,
   C10_no_membership_requirement gStarted 99 1000 5 (freshRound 1)
     rfl rfl (by decide) (by decide)⟩

end GamePublicGoodSpec
